import Mathlib

/-
Verification of the LinkVault client-side data engine.

The TypeScript store (store/useStore.ts) keeps two entity collections,
links and folders, as plain arrays; every mutation replaces the whole
collection.  We embed the collections as Lean lists and each store
operation as a pure function on them.  Timestamps (ISO strings produced
by successive `new Date().toISOString()` calls) are embedded as natural
numbers; the clock is passed to each operation as an explicit `now`
parameter, and the `new Date()` reads performed inside one synchronous
operation are modelled as the single instant at which that operation
runs.  Identifiers (`crypto.randomUUID()`) are embedded as strings
supplied to the creating operation as a parameter.
-/

set_option maxHeartbeats 1000000

/-- The closed platform enumeration from types/index.ts. -/
inductive Platform where
  | youtube | twitter | instagram | linkedin | tiktok
  | github | medium | reddit | facebook | other
deriving DecidableEq, Repr

/-- The Link entity from types/index.ts. -/
structure Link where
  id : String
  url : String
  title : String
  description : String
  thumbnail : String
  platform : Platform
  folderId : Option String
  isFavorite : Bool
  deletedAt : Option Nat
  createdAt : Nat
  updatedAt : Nat
deriving DecidableEq, Repr

/-- The argument of `addLink`: a Link without id, createdAt, updatedAt
and deletedAt (the `Omit` type in the store interface). -/
structure LinkData where
  url : String
  title : String
  description : String
  thumbnail : String
  platform : Platform
  folderId : Option String
  isFavorite : Bool
deriving DecidableEq, Repr

/-- A `Partial<Link>` value: every field optional.  A `some` component
means the field is present in the update object. -/
structure LinkPatch where
  id : Option String := none
  url : Option String := none
  title : Option String := none
  description : Option String := none
  thumbnail : Option String := none
  platform : Option Platform := none
  folderId : Option (Option String) := none
  isFavorite : Option Bool := none
  deletedAt : Option (Option Nat) := none
  createdAt : Option Nat := none
  updatedAt : Option Nat := none
deriving DecidableEq, Repr

/-- The empty update object. -/
def emptyLinkPatch : LinkPatch := {}

/-- The spread `{ ...link, ...updates, updatedAt: now }` from
`updateLink`: fields present in the update object overwrite the entity,
and `updatedAt` is re-stamped last, overriding even an `updatedAt`
supplied in the update object. -/
def mergeLink (l : Link) (p : LinkPatch) (now : Nat) : Link :=
  { id := p.id.getD l.id
    url := p.url.getD l.url
    title := p.title.getD l.title
    description := p.description.getD l.description
    thumbnail := p.thumbnail.getD l.thumbnail
    platform := p.platform.getD l.platform
    folderId := p.folderId.getD l.folderId
    isFavorite := p.isFavorite.getD l.isFavorite
    deletedAt := p.deletedAt.getD l.deletedAt
    createdAt := p.createdAt.getD l.createdAt
    updatedAt := now }

/-- The new entity built inside `addLink`. -/
def newLink (d : LinkData) (newId : String) (now : Nat) : Link :=
  { id := newId
    url := d.url
    title := d.title
    description := d.description
    thumbnail := d.thumbnail
    platform := d.platform
    folderId := d.folderId
    isFavorite := d.isFavorite
    deletedAt := none
    createdAt := now
    updatedAt := now }

/-- `addLink` from store/useStore.ts: appends the new entity. -/
def addLink (links : List Link) (d : LinkData) (newId : String) (now : Nat) : List Link :=
  links ++ [newLink d newId now]

/-- `updateLink` from store/useStore.ts. -/
def updateLink (links : List Link) (id : String) (p : LinkPatch) (now : Nat) : List Link :=
  links.map fun l => if l.id = id then mergeLink l p now else l

/-- `deleteLink` from store/useStore.ts: soft delete, stamping
`deletedAt` and `updatedAt`. -/
def deleteLink (links : List Link) (id : String) (now : Nat) : List Link :=
  links.map fun l =>
    if l.id = id then { l with deletedAt := some now, updatedAt := now } else l

/-- `restoreLink` from store/useStore.ts. -/
def restoreLink (links : List Link) (id : String) (now : Nat) : List Link :=
  links.map fun l =>
    if l.id = id then { l with deletedAt := none, updatedAt := now } else l

/-- `permanentlyDeleteLink` from store/useStore.ts. -/
def permanentlyDeleteLink (links : List Link) (id : String) : List Link :=
  links.filter fun l => l.id ≠ id

/-- `toggleFavorite` from store/useStore.ts. -/
def toggleFavorite (links : List Link) (id : String) (now : Nat) : List Link :=
  links.map fun l =>
    if l.id = id then { l with isFavorite := !l.isFavorite, updatedAt := now } else l

/-- The Folder entity from types/index.ts.  The optional TypeScript
fields `description` and `platform` are embedded as a string (the store
always supplies one, defaulting to the empty string) and an `Option`. -/
structure Folder where
  id : String
  name : String
  description : String
  color : String
  icon : String
  parentId : Option String
  isPlatformFolder : Bool
  platform : Option Platform
  createdAt : Nat
  updatedAt : Nat
deriving DecidableEq, Repr

/-- The argument of `addFolder`: a Folder without id, createdAt and
updatedAt. -/
structure FolderData where
  name : String
  description : String
  color : String
  icon : String
  parentId : Option String
  isPlatformFolder : Bool
  platform : Option Platform
deriving DecidableEq, Repr

/-- A `Partial<Folder>` value. -/
structure FolderPatch where
  id : Option String := none
  name : Option String := none
  description : Option String := none
  color : Option String := none
  icon : Option String := none
  parentId : Option (Option String) := none
  isPlatformFolder : Option Bool := none
  platform : Option (Option Platform) := none
  createdAt : Option Nat := none
  updatedAt : Option Nat := none
deriving DecidableEq, Repr

/-- The spread `{ ...folder, ...updates, updatedAt: now }` from
`updateFolder`. -/
def mergeFolder (f : Folder) (p : FolderPatch) (now : Nat) : Folder :=
  { id := p.id.getD f.id
    name := p.name.getD f.name
    description := p.description.getD f.description
    color := p.color.getD f.color
    icon := p.icon.getD f.icon
    parentId := p.parentId.getD f.parentId
    isPlatformFolder := p.isPlatformFolder.getD f.isPlatformFolder
    platform := p.platform.getD f.platform
    createdAt := p.createdAt.getD f.createdAt
    updatedAt := now }

/-- The new entity built inside `addFolder`. -/
def newFolder (d : FolderData) (newId : String) (now : Nat) : Folder :=
  { id := newId
    name := d.name
    description := d.description
    color := d.color
    icon := d.icon
    parentId := d.parentId
    isPlatformFolder := d.isPlatformFolder
    platform := d.platform
    createdAt := now
    updatedAt := now }

/-- `addFolder` from store/useStore.ts: appends the new entity without
re-checking the hierarchy invariants. -/
def addFolder (folders : List Folder) (d : FolderData) (newId : String) (now : Nat) :
    List Folder :=
  folders ++ [newFolder d newId now]

/-- `updateFolder` from store/useStore.ts. -/
def updateFolder (folders : List Folder) (id : String) (p : FolderPatch) (now : Nat) :
    List Folder :=
  folders.map fun f => if f.id = id then mergeFolder f p now else f

/-- `deleteFolder` from store/useStore.ts: removes the folder only, with
no cascade to sub-folders or links. -/
def deleteFolder (folders : List Folder) (id : String) : List Folder :=
  folders.filter fun f => f.id ≠ id

/-- Modelled from the spec: utils/folder-utils.ts is not among the
sources; §4.3 fixes `MAX_SUB_FOLDERS_PER_FOLDER` as the configured
fan-out limit (10, per the create-folder modal text "now 10"). -/
def MAX_SUB_FOLDERS_PER_FOLDER : Nat := 10

/-- Modelled from the spec: `getSubFolderCount(parentId, folders)` is
the count of folders whose `parentId` equals the given parent. -/
def getSubFolderCount (parentId : String) (folders : List Folder) : Nat :=
  (folders.filter fun f => f.parentId = some parentId).length

/-- Modelled from the spec: `canAddSubFolder` compares the sub-folder
count against the fan-out limit. -/
def canAddSubFolder (parentId : String) (folders : List Folder) : Bool :=
  getSubFolderCount parentId folders < MAX_SUB_FOLDERS_PER_FOLDER

/-- Modelled from the spec: `getRootFolders(folders)` filters the
folders with no parent, in collection order. -/
def getRootFolders (folders : List Folder) : List Folder :=
  folders.filter fun f => f.parentId = none

/-- Folder creation as performed through `onSubmit` of
components/modals/create-folder-modal.tsx: when a parent is requested,
the parent must exist and itself be a root folder (`parent?.parentId !==
null` rejects both a missing parent and a sub-folder parent), and the
fan-out limit must not be reached; only then is `addFolder` invoked. -/
def createFolderGuarded (folders : List Folder) (d : FolderData) (newId : String)
    (now : Nat) : List Folder :=
  match d.parentId with
  | none => addFolder folders d newId now
  | some pid =>
    match folders.find? fun f => f.id = pid with
    | none => folders
    | some parent =>
      if parent.parentId ≠ none then folders
      else if ¬ canAddSubFolder pid folders then folders
      else addFolder folders d newId now

/-- The two-level hierarchy invariant of §3/§8: every folder with a
parent references a folder present in the collection whose own parent is
null. -/
def folderDepthInvB (folders : List Folder) : Bool :=
  folders.all fun f =>
    match f.parentId with
    | none => true
    | some pid => folders.any fun g => g.id == pid && g.parentId == none

theorem folderDepthInvB_iff (folders : List Folder) :
    folderDepthInvB folders = true ↔
      ∀ f ∈ folders, ∀ pid, f.parentId = some pid →
        ∃ g ∈ folders, g.id = pid ∧ g.parentId = none := by
  unfold folderDepthInvB
  rw [List.all_eq_true]
  constructor
  · intro h f hf pid hpid
    have h2 := h f hf
    rw [hpid] at h2
    simp only [List.any_eq_true, Bool.and_eq_true, beq_iff_eq] at h2
    obtain ⟨g, hg, h1, hnone⟩ := h2
    exact ⟨g, hg, h1, hnone⟩
  · intro h f hf
    cases hp : f.parentId with
    | none => rfl
    | some pid =>
      simp only [List.any_eq_true, Bool.and_eq_true, beq_iff_eq]
      obtain ⟨g, hg, h1, hnone⟩ := h f hf pid hp
      exact ⟨g, hg, h1, hnone⟩

/-- Theme values of the Settings record. -/
inductive Theme where
  | light | dark | system
deriving DecidableEq, Repr

/-- View-mode values of the Settings record. -/
inductive ViewMode where
  | grid | list
deriving DecidableEq, Repr

/-- The Settings singleton from types/index.ts. -/
structure AppSettings where
  theme : Theme
  viewMode : ViewMode
deriving DecidableEq, Repr

/-- `DEFAULT_SETTINGS` from constants/index.ts. -/
def DEFAULT_SETTINGS : AppSettings := { theme := .system, viewMode := .grid }

/-- One entry of the platform-folder catalog consumed by
`loadFromStorage`. -/
structure PlatformFolderSpec where
  name : String
  color : String
  iconName : String
  platform : Platform
deriving DecidableEq, Repr

/-- Modelled from the spec: `PLATFORM_FOLDERS` lives in
constants/folder-icons.ts, which is not among the sources; §3 fixes one
entry per known platform.  Display names and colors are taken from
`PLATFORM_CONFIG` in constants/index.ts. -/
def PLATFORM_FOLDERS : List PlatformFolderSpec :=
  [ { name := "YouTube", color := "#FF0000", iconName := "Youtube", platform := .youtube }
  , { name := "Twitter", color := "#1DA1F2", iconName := "Twitter", platform := .twitter }
  , { name := "Instagram", color := "#E4405F", iconName := "Instagram", platform := .instagram }
  , { name := "LinkedIn", color := "#0077B5", iconName := "Linkedin", platform := .linkedin }
  , { name := "TikTok", color := "#000000", iconName := "Music", platform := .tiktok }
  , { name := "GitHub", color := "#181717", iconName := "Github", platform := .github }
  , { name := "Medium", color := "#00AB6C", iconName := "BookOpen", platform := .medium }
  , { name := "Reddit", color := "#FF4500", iconName := "MessageCircle", platform := .reddit }
  , { name := "Facebook", color := "#1877F2", iconName := "Facebook", platform := .facebook }
  , { name := "Other", color := "#6B7280", iconName := "Link", platform := .other } ]

/-- The `PLATFORM_FOLDERS.map((pf, index) => ...)` synthesis inside
`loadFromStorage`, with the running array index made explicit;
`Date.now()` is the `now` instant. -/
def mkPlatformFolders (now : Nat) : Nat → List PlatformFolderSpec → List Folder
  | _, [] => []
  | i, pf :: rest =>
    { id := "platform-folder-" ++ toString i ++ "-" ++ toString now
      name := pf.name
      description := ""
      color := pf.color
      icon := pf.iconName
      parentId := none
      isPlatformFolder := true
      platform := some pf.platform
      createdAt := now
      updatedAt := now } :: mkPlatformFolders now (i + 1) rest

/-- The durable records read at hydration time; `none` is what
`storage.getItem` yields for a missing or corrupt key. -/
structure StoredData where
  links : Option (List Link)
  folders : Option (List Folder)
  settings : Option AppSettings
deriving DecidableEq, Repr

/-- The slice of the store state that `loadFromStorage` replaces. -/
structure StoreState where
  links : List Link
  folders : List Folder
  settings : AppSettings
  isHydrated : Bool
deriving DecidableEq, Repr

/-- `loadFromStorage` from store/useStore.ts: falls back to empty
collections and default settings, synthesizes the platform root folders
exactly when the loaded folder collection is empty, and marks the store
hydrated. -/
def loadFromStorage (stored : StoredData) (now : Nat) : StoreState :=
  let links := stored.links.getD []
  let folders0 := stored.folders.getD []
  let settings := stored.settings.getD DEFAULT_SETTINGS
  let folders :=
    if folders0.length = 0 then mkPlatformFolders now 0 PLATFORM_FOLDERS else folders0
  { links := links, folders := folders, settings := settings, isHydrated := true }

/-- The patch object `{ isFavorite: shouldFavorite }` passed to
`updateLink` by the bulk favorite handler. -/
def favPatch (b : Bool) : LinkPatch := { emptyLinkPatch with isFavorite := some b }

/-- The patch object `{ folderId: selectedFolderId }` passed to
`updateLink` by the bulk move handler. -/
def movePatch (tid : String) : LinkPatch :=
  { emptyLinkPatch with folderId := some (some tid) }

/-- Outcome of one bulk action as observed by the user: the resulting
links collection, the count shown in the success toast (`none` when no
toast fires), and whether the selection set was cleared. -/
structure BulkOutcome where
  links : List Link
  toastCount : Option Nat
  cleared : Bool
deriving DecidableEq, Repr

/-- The `shouldFavorite` computation at the top of `handleBulkFavorite`
in components/common/bulk-action-bar.tsx: a mixed selection resolves to
favorite-all, a uniform (or empty) one toggles against the first
selected link, where `!selectedLinks[0]?.isFavorite` evaluates to `true`
when no selected link exists. -/
def bulkShouldFavorite (links : List Link) (selectedIds : List String) : Bool :=
  let selectedLinks := links.filter fun l => selectedIds.contains l.id
  let hasMixedStates :=
    (selectedLinks.any fun l => l.isFavorite) && selectedLinks.any fun l => !l.isFavorite
  if hasMixedStates then true
  else
    match selectedLinks.head? with
    | some l => !l.isFavorite
    | none => true

/-- `handleBulkFavorite` from components/common/bulk-action-bar.tsx:
computes `shouldFavorite` once from the captured links, then calls
`updateLink` per selected id; the toast always reports
`selectedIds.length` and the handler never clears the selection. -/
def handleBulkFavorite (links : List Link) (selectedIds : List String) (now : Nat) :
    BulkOutcome :=
  { links :=
      selectedIds.foldl
        (fun acc id => updateLink acc id (favPatch (bulkShouldFavorite links selectedIds)) now)
        links
    toastCount := some selectedIds.length
    cleared := false }

/-- `handleConfirmDelete` from components/common/bulk-action-bar.tsx:
soft-deletes every selected id, toasts `selectedIds.length`, and clears
the selection. -/
def handleConfirmDelete (links : List Link) (selectedIds : List String) (now : Nat) :
    BulkOutcome :=
  { links := selectedIds.foldl (fun acc id => deleteLink acc id now) links
    toastCount := some selectedIds.length
    cleared := true }

/-- Result of `handleMove` in components/modals/bulk-move-modal.tsx:
the links collection, the `movedCount` passed to `onComplete`, whether
the already-in-folder confirmation was surfaced, and whether the move
loop ran (it does not when the target is null or the confirmation is
declined). -/
structure MoveResult where
  links : List Link
  movedCount : Nat
  asked : Bool
  committed : Bool
deriving DecidableEq, Repr

/-- One iteration of the `selectedIds.forEach` loop in `handleMove`:
the lookup and the already-in-target test run against the captured
`links` snapshot, not the evolving collection. -/
def moveStep (links : List Link) (tid : String) (now : Nat)
    (acc : List Link × Nat) (id : String) : List Link × Nat :=
  match links.find? fun l => l.id = id with
  | some l =>
    if l.folderId ≠ some tid then (updateLink acc.1 id (movePatch tid) now, acc.2 + 1)
    else acc
  | none => acc

/-- Whether the `forEach` body of `handleMove` fires for a given id:
the id resolves to a link (first match in the snapshot) whose folder is
not already the target. -/
def moveEligible (links : List Link) (tid : String) (id : String) : Bool :=
  match links.find? fun l => l.id = id with
  | some l => decide (l.folderId ≠ some tid)
  | none => false

/-- `handleMove` from components/modals/bulk-move-modal.tsx.  A null
target returns immediately.  When some selected links are already in the
target folder a `window.confirm` is surfaced (its answer is the
`proceed` parameter); declining aborts with nothing committed.
Otherwise every selected id whose link is not already in the target is
updated and counted. -/
def handleMove (links : List Link) (selectedIds : List String)
    (selectedFolderId : Option String) (proceed : Bool) (now : Nat) : MoveResult :=
  match selectedFolderId with
  | none => { links := links, movedCount := 0, asked := false, committed := false }
  | some tid =>
    let selectedLinks := links.filter fun l => selectedIds.contains l.id
    let alreadyInFolder := selectedLinks.filter fun l => l.folderId = some tid
    let asked := decide (0 < alreadyInFolder.length)
    if 0 < alreadyInFolder.length ∧ proceed = false then
      { links := links, movedCount := 0, asked := asked, committed := false }
    else
      let r := selectedIds.foldl (moveStep links tid now) (links, 0)
      { links := r.1, movedCount := r.2, asked := asked, committed := true }

/-- The bulk move pipeline as the user sees it: `handleMove` followed by
`handleMoveComplete` in components/common/bulk-action-bar.tsx, which
toasts the moved count and clears the selection only when
`movedCount > 0`. -/
def bulkMoveAction (links : List Link) (selectedIds : List String)
    (selectedFolderId : Option String) (proceed : Bool) (now : Nat) : BulkOutcome :=
  let r := handleMove links selectedIds selectedFolderId proceed now
  { links := r.links
    toastCount := if 0 < r.movedCount then some r.movedCount else none
    cleared := decide (0 < r.movedCount) }

/-- Folding per-id collection rewrites over a list of ids, where each
fired step rewrites every matching link with an id-preserving idempotent
transformer, amounts to one map over the collection. -/
theorem foldl_map_update (t : Link → Link) (P : String → Bool)
    (hId : ∀ l, (t l).id = l.id) (hIdem : ∀ l, t (t l) = t l) :
    ∀ (ids : List String) (links : List Link),
      ids.foldl
        (fun acc id =>
          if P id = true then acc.map (fun l => if l.id = id then t l else l) else acc)
        links
      = links.map fun l => if l.id ∈ ids ∧ P l.id = true then t l else l := by
  intro ids
  induction ids with
  | nil =>
    intro links
    simp
  | cons id0 rest ih =>
    intro links
    rw [List.foldl_cons]
    by_cases hP : P id0 = true
    · rw [if_pos hP, ih, List.map_map]
      apply List.map_congr_left
      intro l _
      simp only [Function.comp_apply]
      by_cases hid : l.id = id0
      · rw [if_pos hid]
        have hPl : P l.id = true := by rw [hid]; exact hP
        by_cases hmem : l.id ∈ rest
        · have : (t l).id ∈ rest := by rw [hId]; exact hmem
          rw [if_pos ⟨this, by rw [hId]; exact hPl⟩, hIdem,
            if_pos ⟨by rw [hid]; exact List.mem_cons_self id0 rest, hPl⟩]
      
        · have : ¬ ((t l).id ∈ rest ∧ P (t l).id = true) := by
            rw [hId]; intro h; exact hmem h.1
          rw [if_neg this, if_pos ⟨by rw [hid]; exact List.mem_cons_self id0 rest, hPl⟩]
      · rw [if_neg hid]
        have : (l.id ∈ id0 :: rest ∧ P l.id = true) ↔ (l.id ∈ rest ∧ P l.id = true) := by
          constructor
          · rintro ⟨h1, h2⟩
            rcases List.mem_cons.mp h1 with h | h
            · exact absurd h hid
            · exact ⟨h, h2⟩
          · rintro ⟨h1, h2⟩
            exact ⟨List.mem_cons_of_mem _ h1, h2⟩
        by_cases hc : l.id ∈ rest ∧ P l.id = true
        · rw [if_pos hc, if_pos (this.mpr hc)]
        · rw [if_neg hc, if_neg (fun h => hc (this.mp h))]
    · rw [if_neg hP, ih]
      apply List.map_congr_left
      intro l _
      by_cases hid : l.id = id0
      · have hPl : ¬ P l.id = true := by rw [hid]; exact hP
        rw [if_neg (fun h => hPl h.2), if_neg (fun h => hPl h.2)]
      · have : (l.id ∈ id0 :: rest ∧ P l.id = true) ↔ (l.id ∈ rest ∧ P l.id = true) := by
          constructor
          · rintro ⟨h1, h2⟩
            rcases List.mem_cons.mp h1 with h | h
            · exact absurd h hid
            · exact ⟨h, h2⟩
          · rintro ⟨h1, h2⟩
            exact ⟨List.mem_cons_of_mem _ h1, h2⟩
        by_cases hc : l.id ∈ rest ∧ P l.id = true
        · rw [if_pos hc, if_pos (this.mpr hc)]
        · rw [if_neg hc, if_neg (fun h => hc (this.mp h))]

/-- The unconditional variant: folding an unguarded per-id rewrite over
a list of ids is one map over the collection. -/
theorem foldl_map_update_all (t : Link → Link)
    (hId : ∀ l, (t l).id = l.id) (hIdem : ∀ l, t (t l) = t l)
    (ids : List String) (links : List Link) :
    ids.foldl (fun acc id => acc.map (fun l => if l.id = id then t l else l)) links
      = links.map fun l => if l.id ∈ ids then t l else l := by
  have h := foldl_map_update t (fun _ => true) hId hIdem ids links
  simpa using h

/-- Splitting the move loop into its collection component (a guarded
per-id rewrite) and its counter component (a count of eligible ids). -/
theorem foldl_moveStep (links : List Link) (tid : String) (now : Nat) :
    ∀ (ids : List String) (acc : List Link × Nat),
      ids.foldl (moveStep links tid now) acc
        = (ids.foldl
            (fun ls id =>
              if moveEligible links tid id = true
              then updateLink ls id (movePatch tid) now else ls) acc.1,
           acc.2 + ids.countP (moveEligible links tid)) := by
  intro ids
  induction ids with
  | nil =>
    intro acc
    simp
  | cons id0 rest ih =>
    intro acc
    rw [List.foldl_cons, List.foldl_cons, ih]
    cases hf : links.find? (fun l => l.id = id0) with
    | none =>
      have h1 : moveStep links tid now acc id0 = acc := by
        unfold moveStep
        rw [hf]
      have h2 : moveEligible links tid id0 = false := by
        unfold moveEligible
        rw [hf]
      rw [h1, List.countP_cons, h2]
      simp
    | some l =>
      by_cases hc : l.folderId = some tid
      · have h1 : moveStep links tid now acc id0 = acc := by
          unfold moveStep
          rw [hf]
          simp [hc]
        have h2 : moveEligible links tid id0 = false := by
          unfold moveEligible
          rw [hf]
          simp [hc]
        rw [h1, List.countP_cons, h2]
        simp
      · have h1 : moveStep links tid now acc id0
            = (updateLink acc.1 id0 (movePatch tid) now, acc.2 + 1) := by
          unfold moveStep
          rw [hf]
          simp [hc]
        have h2 : moveEligible links tid id0 = true := by
          unfold moveEligible
          rw [hf]
          simp [hc]
        rw [h1, List.countP_cons, h2]
        simp only [Prod.mk.injEq, if_true]
        refine ⟨by simp [h2], by omega⟩

/-- When link identifiers are unique, looking up a member link by its
own id finds exactly that link. -/
theorem find?_id_of_nodup :
    ∀ (links : List Link), (links.map Link.id).Nodup →
      ∀ l ∈ links, links.find? (fun x => x.id = l.id) = some l := by
  intro links
  induction links with
  | nil =>
    intro _ l hl
    exact absurd hl (List.not_mem_nil l)
  | cons a as ih =>
    intro hnd l hl
    have hnd2 := hnd
    rw [List.map_cons, List.nodup_cons] at hnd2
    rcases List.mem_cons.mp hl with h | h
    · subst h
      rw [List.find?_cons_of_pos]
      simp
    · have hne : a.id ≠ l.id := by
        intro he
        exact hnd2.1 (he ▸ List.mem_map_of_mem Link.id h)
      rw [List.find?_cons_of_neg]
      · exact ih hnd2.2 l h
      · simp [hne]

/-- Every folder synthesized at hydration time is a platform root
folder. -/
theorem mkPlatformFolders_mem :
    ∀ (ps : List PlatformFolderSpec) (i now : Nat) (f : Folder),
      f ∈ mkPlatformFolders now i ps → f.isPlatformFolder = true ∧ f.parentId = none := by
  intro ps
  induction ps with
  | nil =>
    intro i now f h
    simp [mkPlatformFolders] at h
  | cons p rest ih =>
    intro i now f h
    rw [mkPlatformFolders] at h
    rcases List.mem_cons.mp h with h1 | h2
    · subst h1
      exact ⟨rfl, rfl⟩
    · exact ih (i + 1) now f h2

/-- The platform multiset of the synthesized folders is exactly that of
the catalog, independently of the starting index and instant. -/
theorem mkPlatformFolders_countP (p : Platform) :
    ∀ (ps : List PlatformFolderSpec) (i now : Nat),
      (mkPlatformFolders now i ps).countP (fun f => decide (f.platform = some p))
        = ps.countP (fun pf => decide (pf.platform = p)) := by
  intro ps
  induction ps with
  | nil =>
    intro i now
    rfl
  | cons q rest ih =>
    intro i now
    rw [mkPlatformFolders, List.countP_cons, List.countP_cons, ih (i + 1) now]
    congr 1
    simp

/-- A map whose function fixes every member leaves the list unchanged. -/
theorem map_eq_self_of {α : Type} (l : List α) (f : α → α) (h : ∀ a ∈ l, f a = a) :
    l.map f = l := by
  induction l with
  | nil => rfl
  | cons a as ih =>
    rw [List.map_cons, h a (List.mem_cons_self a as),
      ih fun x hx => h x (List.mem_cons_of_mem a hx)]

/-- The collection component of the bulk favorite handler: one map that
rewrites exactly the selected ids. -/
theorem handleBulkFavorite_links (links : List Link) (selectedIds : List String)
    (now : Nat) :
    (handleBulkFavorite links selectedIds now).links
      = links.map fun l =>
          if l.id ∈ selectedIds
          then { l with isFavorite := bulkShouldFavorite links selectedIds,
                        updatedAt := now }
          else l := by
  have h := foldl_map_update_all
    (fun l => mergeLink l (favPatch (bulkShouldFavorite links selectedIds)) now)
    (fun l => rfl) (fun l => rfl) selectedIds links
  exact h

/-- A mixed selection makes `shouldFavorite` true. -/
theorem bulkShouldFavorite_mixed (links : List Link) (selectedIds : List String)
    (ha : ∃ a ∈ links.filter (fun l => selectedIds.contains l.id), a.isFavorite = true)
    (hb : ∃ b ∈ links.filter (fun l => selectedIds.contains l.id), b.isFavorite = false) :
    bulkShouldFavorite links selectedIds = true := by
  obtain ⟨a, hma, hfa⟩ := ha
  obtain ⟨b, hmb, hfb⟩ := hb
  have h1 : (links.filter (fun l => selectedIds.contains l.id)).any
      (fun l => l.isFavorite) = true := by
    rw [List.any_eq_true]
    exact ⟨a, hma, hfa⟩
  have h2 : (links.filter (fun l => selectedIds.contains l.id)).any
      (fun l => !l.isFavorite) = true := by
    rw [List.any_eq_true]
    refine ⟨b, hmb, ?_⟩
    rw [hfb]
    rfl
  show (if (((links.filter fun l => selectedIds.contains l.id).any fun l => l.isFavorite)
          && ((links.filter fun l => selectedIds.contains l.id).any fun l => !l.isFavorite))
          = true
        then true
        else
          match (links.filter fun l => selectedIds.contains l.id).head? with
          | some l => !l.isFavorite
          | none => true) = true
  rw [h1, h2]
  rfl

/-- A uniform selection makes `shouldFavorite` the negation of the
first selected link's state. -/
theorem bulkShouldFavorite_uniform (links : List Link) (selectedIds : List String)
    (l0 : Link)
    (hhead : (links.filter (fun l => selectedIds.contains l.id)).head? = some l0)
    (huni : ∀ l1 ∈ links.filter (fun l => selectedIds.contains l.id),
            ∀ l2 ∈ links.filter (fun l => selectedIds.contains l.id),
              l1.isFavorite = l2.isFavorite) :
    bulkShouldFavorite links selectedIds = !l0.isFavorite := by
  have hmix : (((links.filter fun l => selectedIds.contains l.id).any fun l => l.isFavorite)
      && ((links.filter fun l => selectedIds.contains l.id).any fun l => !l.isFavorite))
      = false := by
    cases hA : (links.filter fun l => selectedIds.contains l.id).any
        fun l => l.isFavorite with
    | false => rfl
    | true =>
      cases hB : (links.filter fun l => selectedIds.contains l.id).any
          fun l => !l.isFavorite with
      | false => rfl
      | true =>
        rw [List.any_eq_true] at hA hB
        obtain ⟨a, hma, hfa⟩ := hA
        obtain ⟨b, hmb, hfb⟩ := hB
        have he := huni a hma b hmb
        rw [hfa] at he
        simp only [Bool.not_eq_eq_eq_not, Bool.not_true] at hfb
        rw [hfb] at he
        exact absurd he (by simp)
  show (if (((links.filter fun l => selectedIds.contains l.id).any fun l => l.isFavorite)
          && ((links.filter fun l => selectedIds.contains l.id).any fun l => !l.isFavorite))
          = true
        then true
        else
          match (links.filter fun l => selectedIds.contains l.id).head? with
          | some l => !l.isFavorite
          | none => true) = !l0.isFavorite
  rw [hmix, hhead]
  rfl

/-- C1: for a link present in the collection with deletedAt null,
deleteLink followed by restoreLink yields, at the same position, a link
equal to the original in every field except updatedAt, which now
carries the restore instant; in particular deletedAt is null again, and
under an advancing clock updatedAt has strictly advanced. -/
theorem claim1_delete_restore_roundtrip (links : List Link) (lid : String)
    (t1 t2 : Nat) (i : Nat) (l : Link)
    (hmem : links[i]? = some l) (hid : l.id = lid) (hactive : l.deletedAt = none) :
    (restoreLink (deleteLink links lid t1) lid t2)[i]? = some { l with updatedAt := t2 }
    ∧ ({ l with updatedAt := t2 } : Link).deletedAt = none
    ∧ (l.updatedAt < t2 → l.updatedAt < ({ l with updatedAt := t2 } : Link).updatedAt) := by
  refine ⟨?_, ?_, ?_⟩
  · unfold restoreLink deleteLink
    rw [List.map_map, List.getElem?_map, hmem, Option.map_some']
    congr 1
    simp only [Function.comp_apply, hid, if_pos]
    rw [hactive]
  · show l.deletedAt = none
    exact hactive
  · intro h
    exact h

/-- C1 witness: a concrete favorited active link deleted at 5 and
restored at 6 comes back intact with updatedAt 6. -/
theorem claim1_witness :
    (restoreLink
        (deleteLink [⟨"a", "u", "t", "d", "th", Platform.github, some "f", true, none, 3, 4⟩]
          "a" 5)
        "a" 6)[0]?
      = some { (⟨"a", "u", "t", "d", "th", Platform.github, some "f", true, none, 3, 4⟩ : Link)
                with updatedAt := 6 } :=
  (claim1_delete_restore_roundtrip
    [⟨"a", "u", "t", "d", "th", Platform.github, some "f", true, none, 3, 4⟩]
    "a" 5 6 0
    ⟨"a", "u", "t", "d", "th", Platform.github, some "f", true, none, 3, 4⟩
    rfl rfl rfl).1

/-- C2: addLink appends exactly one link at the end of the collection,
with null deletedAt, createdAt equal to updatedAt (both the call
instant), an identifier fresh with respect to the prior collection
(uniqueness of `crypto.randomUUID` is taken as a hypothesis on the
generated id), and every pre-existing link unchanged in place. -/
theorem claim2_addLink_appends (links : List Link) (d : LinkData) (newId : String)
    (now : Nat) (hfresh : ∀ l ∈ links, l.id ≠ newId) :
    (addLink links d newId now).length = links.length + 1
    ∧ (∀ i, i < links.length → (addLink links d newId now)[i]? = links[i]?)
    ∧ (addLink links d newId now)[links.length]? = some (newLink d newId now)
    ∧ (newLink d newId now).deletedAt = none
    ∧ (newLink d newId now).createdAt = now
    ∧ (newLink d newId now).updatedAt = now
    ∧ ∀ l ∈ links, l.id ≠ (newLink d newId now).id := by
  refine ⟨?_, ?_, ?_, rfl, rfl, rfl, ?_⟩
  · unfold addLink
    rw [List.length_append]
    rfl
  · intro i hi
    unfold addLink
    exact List.getElem?_append_left hi
  · unfold addLink
    exact List.getElem?_concat_length ..
  · intro l hl
    exact hfresh l hl

/-- C2 witness: adding a concrete link to a one-link collection keeps
the old link at position 0 and appends the new one at position 1. -/
theorem claim2_witness :
    (addLink [⟨"x", "u", "t", "d", "", Platform.other, none, false, none, 0, 0⟩]
        ⟨"u2", "t2", "d2", "", Platform.github, none, true⟩ "y" 7).length = 2
    ∧ (addLink [⟨"x", "u", "t", "d", "", Platform.other, none, false, none, 0, 0⟩]
        ⟨"u2", "t2", "d2", "", Platform.github, none, true⟩ "y" 7)[1]?
      = some (newLink ⟨"u2", "t2", "d2", "", Platform.github, none, true⟩ "y" 7) :=
  ⟨(claim2_addLink_appends
      [⟨"x", "u", "t", "d", "", Platform.other, none, false, none, 0, 0⟩]
      ⟨"u2", "t2", "d2", "", Platform.github, none, true⟩ "y" 7 (by decide)).1,
   (claim2_addLink_appends
      [⟨"x", "u", "t", "d", "", Platform.other, none, false, none, 0, 0⟩]
      ⟨"u2", "t2", "d2", "", Platform.github, none, true⟩ "y" 7 (by decide)).2.2.1⟩

/-- C3 counterexample: a link soft-deleted at instant 1 is not left
unchanged by a second deleteLink at instant 2, because deletedAt and
updatedAt are re-stamped. -/
theorem claim3_counterexample :
    deleteLink
        (deleteLink [⟨"a", "u", "t", "d", "", Platform.other, none, false, none, 0, 0⟩] "a" 1)
        "a" 2
      ≠ deleteLink [⟨"a", "u", "t", "d", "", Platform.other, none, false, none, 0, 0⟩] "a" 1 := by
  decide

/-- C3 as amended: a second deleteLink collapses to a single deleteLink
at the later instant, so only deletedAt and updatedAt of the matching
links change; at an unchanged clock instant deleteLink is literally
idempotent. -/
theorem claim3_delete_idempotent_up_to_timestamps (links : List Link) (id : String)
    (t1 t2 : Nat) :
    deleteLink (deleteLink links id t1) id t2 = deleteLink links id t2
    ∧ deleteLink (deleteLink links id t1) id t1 = deleteLink links id t1 := by
  have key : ∀ u1 u2 : Nat,
      deleteLink (deleteLink links id u1) id u2 = deleteLink links id u2 := by
    intro u1 u2
    unfold deleteLink
    rw [List.map_map]
    apply List.map_congr_left
    intro l _
    by_cases h : l.id = id
    · simp [Function.comp, h]
    · simp [Function.comp, h]
  exact ⟨key t1 t2, key t1 t1⟩

/-- C4 as amended: the two-level invariant holds in the initial
platform-folder state and is preserved by folder creation guarded by
the creation-time checks; it is not preserved by deleteFolder or
updateFolder (see the counterexample). -/
theorem claim4_guarded_creation_preserves_invariant :
    (∀ (stored : StoredData) (now : Nat), stored.folders.getD [] = [] →
      folderDepthInvB (loadFromStorage stored now).folders = true)
    ∧ (∀ (folders : List Folder) (d : FolderData) (newId : String) (now : Nat),
        folderDepthInvB folders = true →
        folderDepthInvB (createFolderGuarded folders d newId now) = true) := by
  constructor
  · intro stored now h
    have hfold : (loadFromStorage stored now).folders
        = mkPlatformFolders now 0 PLATFORM_FOLDERS := by
      unfold loadFromStorage
      rw [h]
      rfl
    rw [hfold, folderDepthInvB_iff]
    intro f hf pid hpid
    have h2 := (mkPlatformFolders_mem PLATFORM_FOLDERS 0 now f hf).2
    rw [h2] at hpid
    exact Option.noConfusion hpid
  · intro folders d newId now hinv
    unfold createFolderGuarded
    cases hpd : d.parentId with
    | none =>
      rw [folderDepthInvB_iff] at hinv ⊢
      intro f hf pid hpid
      unfold addFolder at hf
      rcases List.mem_append.mp hf with hmem | hmem
      · obtain ⟨g, hg, hgi, hgp⟩ := hinv f hmem pid hpid
        exact ⟨g, List.mem_append_left _ hg, hgi, hgp⟩
      · rw [List.mem_singleton] at hmem
        subst hmem
        rw [show (newFolder d newId now).parentId = d.parentId from rfl, hpd] at hpid
        exact Option.noConfusion hpid
    | some pid0 =>
      show folderDepthInvB
          (match folders.find? (fun f => f.id = pid0) with
           | none => folders
           | some parent =>
             if parent.parentId ≠ none then folders
             else if ¬ canAddSubFolder pid0 folders = true then folders
             else addFolder folders d newId now) = true
      cases hfind : folders.find? (fun f => f.id = pid0) with
      | none => exact hinv
      | some parent =>
        show folderDepthInvB
            (if parent.parentId ≠ none then folders
             else if ¬ canAddSubFolder pid0 folders = true then folders
             else addFolder folders d newId now) = true
        by_cases hroot : parent.parentId ≠ none
        · rw [if_pos hroot]
          exact hinv
        · rw [if_neg hroot]
          by_cases hcan : ¬ canAddSubFolder pid0 folders = true
          · rw [if_pos hcan]
            exact hinv
          · rw [if_neg hcan]
            have hpar_mem : parent ∈ folders := List.mem_of_find?_eq_some hfind
            have hpar_id : parent.id = pid0 := by
              have := List.find?_some hfind
              exact of_decide_eq_true this
            have hpar_root : parent.parentId = none := by
              by_contra hcon
              exact hroot hcon
            rw [folderDepthInvB_iff] at hinv ⊢
            intro f hf pid hpid
            unfold addFolder at hf
            rcases List.mem_append.mp hf with hmem | hmem
            · obtain ⟨g, hg, hgi, hgp⟩ := hinv f hmem pid hpid
              exact ⟨g, List.mem_append_left _ hg, hgi, hgp⟩
            · rw [List.mem_singleton] at hmem
              subst hmem
              rw [show (newFolder d newId now).parentId = d.parentId from rfl, hpd] at hpid
              rw [Option.some_inj] at hpid
              subst hpid
              exact ⟨parent, List.mem_append_left _ hpar_mem, hpar_id, hpar_root⟩

/-- C4 witness: the freshly hydrated platform-folder state satisfies
the invariant, and so does a guarded root-folder creation on an empty
collection. -/
theorem claim4_witness :
    folderDepthInvB (loadFromStorage ⟨none, none, none⟩ 3).folders = true
    ∧ folderDepthInvB
        (createFolderGuarded [] ⟨"A", "", "#000000", "Folder", none, false, none⟩ "idA" 1)
        = true :=
  ⟨claim4_guarded_creation_preserves_invariant.1 ⟨none, none, none⟩ 3 rfl,
   claim4_guarded_creation_preserves_invariant.2 []
     ⟨"A", "", "#000000", "Folder", none, false, none⟩ "idA" 1 (by decide)⟩

/-- C4 counterexample: starting from the initial platform-folder state,
creating root folder A (guarded), creating sub-folder B under A
(guarded), and then deleting A through the store's own deleteFolder
leaves B with a dangling parent reference, so the invariant fails in a
state reachable through the store's own operations. -/
theorem claim4_counterexample :
    folderDepthInvB
        (deleteFolder
          (createFolderGuarded
            (createFolderGuarded (loadFromStorage ⟨none, none, none⟩ 0).folders
              ⟨"A", "", "#000000", "Folder", none, false, none⟩ "idA" 1)
            ⟨"B", "", "#000000", "Folder", some "idA", false, none⟩ "idB" 2)
          "idA")
      = false := by
  decide

/-- C5: the bulk favorite action favorites every selected link when the
selection is mixed, and on a uniform selection sets every selected link
to the negation of the first selected link's current state (re-stamping
updatedAt on every selected link either way). -/
theorem claim5_bulk_favorite (links : List Link) (selectedIds : List String) (now : Nat) :
    ((∃ a ∈ links.filter (fun l => selectedIds.contains l.id), a.isFavorite = true) →
     (∃ b ∈ links.filter (fun l => selectedIds.contains l.id), b.isFavorite = false) →
      (handleBulkFavorite links selectedIds now).links
        = links.map fun l =>
            if l.id ∈ selectedIds
            then { l with isFavorite := true, updatedAt := now } else l)
    ∧ (∀ l0, (links.filter (fun l => selectedIds.contains l.id)).head? = some l0 →
       (∀ l1 ∈ links.filter (fun l => selectedIds.contains l.id),
        ∀ l2 ∈ links.filter (fun l => selectedIds.contains l.id),
          l1.isFavorite = l2.isFavorite) →
      (handleBulkFavorite links selectedIds now).links
        = links.map fun l =>
            if l.id ∈ selectedIds
            then { l with isFavorite := !l0.isFavorite, updatedAt := now } else l) := by
  constructor
  · intro ha hb
    rw [handleBulkFavorite_links, bulkShouldFavorite_mixed links selectedIds ha hb]
  · intro l0 hhead huni
    rw [handleBulkFavorite_links, bulkShouldFavorite_uniform links selectedIds l0 hhead huni]

/-- C5 witness: the spec scenario of three selected links, two
favorited and one not, ends with all three favorited. -/
theorem claim5_witness :
    (handleBulkFavorite
        [⟨"a", "u", "t", "d", "", Platform.other, none, true, none, 0, 0⟩,
         ⟨"b", "u", "t", "d", "", Platform.other, none, true, none, 0, 0⟩,
         ⟨"c", "u", "t", "d", "", Platform.other, none, false, none, 0, 0⟩]
        ["a", "b", "c"] 9).links
      = [⟨"a", "u", "t", "d", "", Platform.other, none, true, none, 0, 0⟩,
         ⟨"b", "u", "t", "d", "", Platform.other, none, true, none, 0, 0⟩,
         ⟨"c", "u", "t", "d", "", Platform.other, none, false, none, 0, 0⟩].map
          (fun l =>
            if l.id ∈ ["a", "b", "c"]
            then { l with isFavorite := true, updatedAt := 9 } else l) :=
  (claim5_bulk_favorite
    [⟨"a", "u", "t", "d", "", Platform.other, none, true, none, 0, 0⟩,
     ⟨"b", "u", "t", "d", "", Platform.other, none, true, none, 0, 0⟩,
     ⟨"c", "u", "t", "d", "", Platform.other, none, false, none, 0, 0⟩]
    ["a", "b", "c"] 9).1 (by decide) (by decide)

/-- The `alreadyInFolder` computation of `handleMove`: selected links
whose folder is already the target. -/
def alreadyInTarget (links : List Link) (selectedIds : List String) (tid : String) :
    List Link :=
  (links.filter fun l => selectedIds.contains l.id).filter fun l => l.folderId = some tid

/-- Unfolding of `handleMove` at a non-null target. -/
theorem handleMove_some (links : List Link) (selectedIds : List String) (tid : String)
    (proceed : Bool) (now : Nat) :
    handleMove links selectedIds (some tid) proceed now
      = (if 0 < (alreadyInTarget links selectedIds tid).length ∧ proceed = false
         then { links := links, movedCount := 0,
                asked := decide (0 < (alreadyInTarget links selectedIds tid).length),
                committed := false }
         else { links := (selectedIds.foldl (moveStep links tid now) (links, 0)).1,
                movedCount := (selectedIds.foldl (moveStep links tid now) (links, 0)).2,
                asked := decide (0 < (alreadyInTarget links selectedIds tid).length),
                committed := true }) := rfl

/-- C6 as amended: when any selected link is already in the target
folder the confirmation is surfaced before anything commits, and
declining leaves the collection untouched; when the move commits, every
selected link whose folder differs from the target is re-filed and
re-stamped, while selected links already in the target are always
skipped, even when the caller confirmed. -/
theorem claim6_bulk_move (links : List Link) (selectedIds : List String) (tid : String)
    (proceed : Bool) (now : Nat) (hnd : (links.map Link.id).Nodup) :
    ((handleMove links selectedIds (some tid) proceed now).asked = true
       ↔ alreadyInTarget links selectedIds tid ≠ [])
    ∧ (alreadyInTarget links selectedIds tid ≠ [] → proceed = false →
        (handleMove links selectedIds (some tid) proceed now).links = links
        ∧ (handleMove links selectedIds (some tid) proceed now).movedCount = 0
        ∧ (handleMove links selectedIds (some tid) proceed now).committed = false)
    ∧ ((alreadyInTarget links selectedIds tid = [] ∨ proceed = true) →
        (handleMove links selectedIds (some tid) proceed now).committed = true
        ∧ (handleMove links selectedIds (some tid) proceed now).links
          = links.map fun l =>
              if l.id ∈ selectedIds ∧ l.folderId ≠ some tid
              then { l with folderId := some tid, updatedAt := now } else l) := by
  refine ⟨?_, ?_, ?_⟩
  · have hasked : (handleMove links selectedIds (some tid) proceed now).asked
        = decide (0 < (alreadyInTarget links selectedIds tid).length) := by
      rw [handleMove_some]
      by_cases hc : 0 < (alreadyInTarget links selectedIds tid).length ∧ proceed = false
      · rw [if_pos hc]
      · rw [if_neg hc]
    rw [hasked]
    simp [List.length_pos]
  · intro hne hpf
    have hc : 0 < (alreadyInTarget links selectedIds tid).length ∧ proceed = false :=
      ⟨List.length_pos.mpr hne, hpf⟩
    rw [handleMove_some, if_pos hc]
    exact ⟨rfl, rfl, rfl⟩
  · intro hor
    have hc : ¬ (0 < (alreadyInTarget links selectedIds tid).length ∧ proceed = false) := by
      rcases hor with he | ht
      · intro hcon
        rw [he] at hcon
        exact absurd hcon.1 (by simp)
      · intro hcon
        rw [ht] at hcon
        exact Bool.noConfusion hcon.2
    rw [handleMove_some, if_neg hc]
    refine ⟨rfl, ?_⟩
    show (selectedIds.foldl (moveStep links tid now) (links, 0)).1 = _
    rw [foldl_moveStep links tid now selectedIds (links, 0)]
    have hkey : (selectedIds.foldl
          (fun ls id =>
            if moveEligible links tid id = true
            then updateLink ls id (movePatch tid) now else ls) (links, 0).1)
        = links.map fun l =>
            if l.id ∈ selectedIds ∧ moveEligible links tid l.id = true
            then mergeLink l (movePatch tid) now else l :=
      foldl_map_update (fun l => mergeLink l (movePatch tid) now)
        (moveEligible links tid) (fun l => rfl) (fun l => rfl) selectedIds links
    rw [hkey]
    apply List.map_congr_left
    intro l hl
    have hE : moveEligible links tid l.id = decide (l.folderId ≠ some tid) := by
      unfold moveEligible
      rw [find?_id_of_nodup links hnd l hl]
    rw [hE]
    by_cases hcl : l.id ∈ selectedIds ∧ l.folderId ≠ some tid
    · rw [if_pos ⟨hcl.1, decide_eq_true hcl.2⟩, if_pos hcl]
      rfl
    · rw [if_neg (fun h => hcl ⟨h.1, of_decide_eq_true h.2⟩), if_neg hcl]

/-- C6 witness: one link outside the target folder, selected and moved
with a confirmed dialog, is re-filed into the target. -/
theorem claim6_witness :
    (handleMove [⟨"a", "u", "t", "d", "", Platform.other, none, false, none, 0, 0⟩]
        ["a"] (some "f") true 4).committed = true
    ∧ (handleMove [⟨"a", "u", "t", "d", "", Platform.other, none, false, none, 0, 0⟩]
        ["a"] (some "f") true 4).links
      = [⟨"a", "u", "t", "d", "", Platform.other, none, false, none, 0, 0⟩].map
          (fun l =>
            if l.id ∈ ["a"] ∧ l.folderId ≠ some "f"
            then { l with folderId := some "f", updatedAt := 4 } else l) :=
  (claim6_bulk_move [⟨"a", "u", "t", "d", "", Platform.other, none, false, none, 0, 0⟩]
    ["a"] "f" true 4 (by decide)).2.2 (Or.inr rfl)

/-- C6 counterexample: the claim says a selected link already in the
target folder is re-written once the caller confirms; in the code the
`link.folderId !== selectedFolderId` test skips it even after
confirmation, so the collection is returned unchanged (updatedAt still
0, not the call instant 5) and the moved count is 0. -/
theorem claim6_counterexample :
    (handleMove [⟨"a", "u", "t", "d", "", Platform.other, some "f", false, none, 0, 0⟩]
        ["a"] (some "f") true 5).links
      = [⟨"a", "u", "t", "d", "", Platform.other, some "f", false, none, 0, 0⟩]
    ∧ (handleMove [⟨"a", "u", "t", "d", "", Platform.other, some "f", false, none, 0, 0⟩]
        ["a"] (some "f") true 5).movedCount = 0 := by
  decide

/-- C7 as amended: bulk favorite and bulk delete toast the number of
selected identifiers, whether or not each id still resolves to a link;
bulk favorite never clears the selection while bulk delete always does;
bulk move toasts and clears exactly when its moved count is positive,
and that count is the number of selected ids whose link exists outside
the target folder (the number of updateLink calls performed). -/
theorem claim7_bulk_report (links : List Link) (selectedIds : List String) (tid : String)
    (proceed : Bool) (now : Nat) :
    ((handleBulkFavorite links selectedIds now).toastCount = some selectedIds.length
      ∧ (handleBulkFavorite links selectedIds now).cleared = false)
    ∧ ((handleConfirmDelete links selectedIds now).toastCount = some selectedIds.length
      ∧ (handleConfirmDelete links selectedIds now).cleared = true)
    ∧ ((bulkMoveAction links selectedIds (some tid) proceed now).toastCount
        = (if 0 < (handleMove links selectedIds (some tid) proceed now).movedCount
           then some (handleMove links selectedIds (some tid) proceed now).movedCount
           else none))
    ∧ ((bulkMoveAction links selectedIds (some tid) proceed now).cleared
        = decide (0 < (handleMove links selectedIds (some tid) proceed now).movedCount))
    ∧ ((alreadyInTarget links selectedIds tid = [] ∨ proceed = true) →
        (handleMove links selectedIds (some tid) proceed now).movedCount
          = selectedIds.countP (moveEligible links tid)) := by
  refine ⟨⟨rfl, rfl⟩, ⟨rfl, rfl⟩, rfl, rfl, ?_⟩
  intro hor
  have hc : ¬ (0 < (alreadyInTarget links selectedIds tid).length ∧ proceed = false) := by
    rcases hor with he | ht
    · intro hcon
      rw [he] at hcon
      exact absurd hcon.1 (by simp)
    · intro hcon
      rw [ht] at hcon
      exact Bool.noConfusion hcon.2
  rw [handleMove_some, if_neg hc]
  show (selectedIds.foldl (moveStep links tid now) (links, 0)).2 = _
  rw [foldl_moveStep links tid now selectedIds (links, 0)]
  show 0 + selectedIds.countP (moveEligible links tid) = _
  rw [Nat.zero_add]

/-- C7 witness: a one-id selection resolving to no link still toasts a
count of 1 in bulk favorite, and a confirmed move of one out-of-target
link reports the eligible-id count. -/
theorem claim7_witness :
    (handleBulkFavorite [⟨"a", "u", "t", "d", "", Platform.other, none, false, none, 0, 0⟩]
        ["a"] 2).toastCount = some 1
    ∧ (handleMove [⟨"a", "u", "t", "d", "", Platform.other, none, false, none, 0, 0⟩]
        ["a"] (some "f") true 2).movedCount
      = ["a"].countP
          (moveEligible [⟨"a", "u", "t", "d", "", Platform.other, none, false, none, 0, 0⟩] "f") :=
  ⟨(claim7_bulk_report [⟨"a", "u", "t", "d", "", Platform.other, none, false, none, 0, 0⟩]
      ["a"] "f" true 2).1.1,
   (claim7_bulk_report [⟨"a", "u", "t", "d", "", Platform.other, none, false, none, 0, 0⟩]
      ["a"] "f" true 2).2.2.2.2 (Or.inr rfl)⟩

/-- C7 counterexample: bulk favorite on a selection whose only id
matches no link mutates nothing, yet the toast reports 1 item, and the
selection is not cleared — contradicting both halves of the claim. -/
theorem claim7_counterexample :
    (handleBulkFavorite [] ["a"] 0).links = []
    ∧ (handleBulkFavorite [] ["a"] 0).toastCount = some 1
    ∧ (handleBulkFavorite [] ["a"] 0).cleared = false :=
  ⟨rfl, rfl, rfl⟩

/-- C8: every update, delete, restore and toggle operation invoked with
an identifier absent from the relevant collection completes as a benign
no-op, leaving the collection unchanged. -/
theorem claim8_unknown_id_noop (links : List Link) (folders : List Folder) (id : String)
    (p : LinkPatch) (pf : FolderPatch) (now : Nat)
    (hl : ∀ l ∈ links, l.id ≠ id) (hf : ∀ f ∈ folders, f.id ≠ id) :
    updateLink links id p now = links
    ∧ deleteLink links id now = links
    ∧ restoreLink links id now = links
    ∧ toggleFavorite links id now = links
    ∧ permanentlyDeleteLink links id = links
    ∧ updateFolder folders id pf now = folders
    ∧ deleteFolder folders id = folders := by
  refine ⟨?_, ?_, ?_, ?_, ?_, ?_, ?_⟩
  · exact map_eq_self_of links _ fun l h => if_neg (hl l h)
  · exact map_eq_self_of links _ fun l h => if_neg (hl l h)
  · exact map_eq_self_of links _ fun l h => if_neg (hl l h)
  · exact map_eq_self_of links _ fun l h => if_neg (hl l h)
  · exact List.filter_eq_self.mpr fun l h => decide_eq_true (hl l h)
  · exact map_eq_self_of folders _ fun f h => if_neg (hf f h)
  · exact List.filter_eq_self.mpr fun f h => decide_eq_true (hf f h)

/-- C8 witness: updating and deleting the unknown id "zz" leaves a
concrete one-link, one-folder state untouched. -/
theorem claim8_witness :
    updateLink [⟨"a", "u", "t", "d", "", Platform.other, none, false, none, 0, 0⟩]
        "zz" emptyLinkPatch 3
      = [⟨"a", "u", "t", "d", "", Platform.other, none, false, none, 0, 0⟩]
    ∧ deleteFolder [⟨"g", "G", "", "#000000", "Folder", none, false, none, 0, 0⟩] "zz"
      = [⟨"g", "G", "", "#000000", "Folder", none, false, none, 0, 0⟩] :=
  ⟨(claim8_unknown_id_noop
      [⟨"a", "u", "t", "d", "", Platform.other, none, false, none, 0, 0⟩]
      [⟨"g", "G", "", "#000000", "Folder", none, false, none, 0, 0⟩]
      "zz" emptyLinkPatch {} 3 (by decide) (by decide)).1,
   (claim8_unknown_id_noop
      [⟨"a", "u", "t", "d", "", Platform.other, none, false, none, 0, 0⟩]
      [⟨"g", "G", "", "#000000", "Folder", none, false, none, 0, 0⟩]
      "zz" emptyLinkPatch {} 3 (by decide) (by decide)).2.2.2.2.2.2⟩

/-- C9: hydrating against an empty stored folder collection synthesizes
a non-empty folder collection with exactly one folder per known
platform, each a platform root folder, and sets the hydration flag;
hydrating against a non-empty stored folder collection synthesizes
nothing. -/
theorem claim9_load_from_storage (stored : StoredData) (now : Nat) :
    (stored.folders.getD [] = [] →
      (loadFromStorage stored now).folders ≠ []
      ∧ (∀ f ∈ (loadFromStorage stored now).folders,
          f.isPlatformFolder = true ∧ f.parentId = none)
      ∧ (∀ p : Platform,
          (loadFromStorage stored now).folders.countP
              (fun f => decide (f.platform = some p)) = 1))
    ∧ (∀ fs, stored.folders = some fs → fs ≠ [] →
        (loadFromStorage stored now).folders = fs)
    ∧ (loadFromStorage stored now).isHydrated = true := by
  refine ⟨?_, ?_, rfl⟩
  · intro h
    have hfold : (loadFromStorage stored now).folders
        = mkPlatformFolders now 0 PLATFORM_FOLDERS := by
      unfold loadFromStorage
      rw [h]
      rfl
    rw [hfold]
    refine ⟨?_, ?_, ?_⟩
    · simp [PLATFORM_FOLDERS, mkPlatformFolders]
    · intro f hfm
      exact mkPlatformFolders_mem PLATFORM_FOLDERS 0 now f hfm
    · intro p
      rw [mkPlatformFolders_countP p PLATFORM_FOLDERS 0 now]
      cases p <;> rfl
  · intro fs hsome hne
    unfold loadFromStorage
    rw [hsome]
    have hlen : ¬ (fs.length = 0) := fun hcon => hne (List.length_eq_zero.mp hcon)
    show (if (fs.length = 0) then mkPlatformFolders now 0 PLATFORM_FOLDERS else fs) = fs
    rw [if_neg hlen]

/-- C9 witness: hydrating a fully empty store yields a non-empty folder
collection with exactly one youtube platform folder, and the store is
marked hydrated. -/
theorem claim9_witness :
    (loadFromStorage ⟨none, none, none⟩ 5).folders ≠ []
    ∧ (loadFromStorage ⟨none, none, none⟩ 5).folders.countP
        (fun f => decide (f.platform = some Platform.youtube)) = 1
    ∧ (loadFromStorage ⟨none, none, none⟩ 5).isHydrated = true :=
  ⟨((claim9_load_from_storage ⟨none, none, none⟩ 5).1 rfl).1,
   ((claim9_load_from_storage ⟨none, none, none⟩ 5).1 rfl).2.2 Platform.youtube,
   (claim9_load_from_storage ⟨none, none, none⟩ 5).2.2⟩

/-- C10: updateLink performs an unrestricted shallow merge — every
field present in the update object, including id, createdAt and
deletedAt, overwrites the entity, with updatedAt then re-stamped to the
call instant regardless of any updatedAt in the update object; in
particular a concrete update can change an entity's identifier, flip
its trash state, or set createdAt above the re-stamped updatedAt,
breaking updatedAt at-least createdAt. -/
theorem claim10_update_link_unrestricted_merge :
    (∀ (l : Link) (p : LinkPatch) (now : Nat),
      updateLink [l] l.id p now
        = [{ id := p.id.getD l.id
             url := p.url.getD l.url
             title := p.title.getD l.title
             description := p.description.getD l.description
             thumbnail := p.thumbnail.getD l.thumbnail
             platform := p.platform.getD l.platform
             folderId := p.folderId.getD l.folderId
             isFavorite := p.isFavorite.getD l.isFavorite
             deletedAt := p.deletedAt.getD l.deletedAt
             createdAt := p.createdAt.getD l.createdAt
             updatedAt := now }])
    ∧ (updateLink [⟨"a", "u", "t", "d", "", Platform.other, none, false, none, 0, 0⟩]
          "a" { emptyLinkPatch with id := some "b" } 1).map Link.id = ["b"]
    ∧ ((updateLink [⟨"a", "u", "t", "d", "", Platform.other, none, false, none, 0, 0⟩]
          "a" { emptyLinkPatch with createdAt := some 10 } 5).all
        fun l => decide (l.updatedAt < l.createdAt)) = true
    ∧ (updateLink [⟨"a", "u", "t", "d", "", Platform.other, none, false, none, 0, 0⟩]
          "a" { emptyLinkPatch with deletedAt := some (some 3) } 1).map Link.deletedAt
      = [some 3] := by
  refine ⟨?_, rfl, rfl, rfl⟩
  intro l p now
  unfold updateLink
  rw [List.map_cons, List.map_nil, if_pos rfl]
  rfl
